import Mathlib

/-!
Shallow embedding of the sliding-window object-detection driver of
`3.1.4 - Project - Sliding Window Object Detection/OpenMV/
solution-live-sliding-window-object-detection.py`.

Coordinates and sizes are integers (`ℤ`, so that the negative window counts
produced by `math.floor((width - window_width) / stride) + 1` when the window
is larger than the frame are represented faithfully); classifier probabilities
are rationals (`ℚ`).  Python's `math.floor(a / s)` for integer `a` and positive
integer `s` is integer floor division, which is `Int` division (`Int.ediv`) in
Lean.  Python's `range n` is empty for `n ≤ 0`, which `List.range n.toNat`
reproduces since `Int.toNat` sends negative numbers to `0`.

The classifier `tf.classify(model_file, window_img)` is modelled as a function
from the window position `(x, y)` to either an exception (`Except.error`) or a
list of prediction objects, each prediction object being its `output()`
probability list.  A Python exception escaping an expression is modelled by
the surrounding computation returning `Except.error`: the script has no
`try`/`except` around the window loop, so any exception aborts the whole scan.
-/

namespace SlidingWindow

/-- A bounding box as appended to `bboxes`:
`bboxes.append((x, y, window_width, window_height, predictions[target_idx]))`. -/
structure Detection where
  x : ℤ
  y : ℤ
  w : ℤ
  h : ℤ
  score : ℚ
deriving DecidableEq

/-- Settings block of the script: `target_label = "dog"`. -/
def target_label : String := "dog"

/-- Settings block of the script: `target_threshold = 0.6`. -/
def target_threshold : ℚ := 6 / 10

/-- Settings block of the script: `width = 160`. -/
def width : ℤ := 160

/-- Settings block of the script: `height = 120`. -/
def height : ℤ := 120

/-- Settings block of the script: `window_width = 48`. -/
def window_width : ℤ := 48

/-- Settings block of the script: `window_height = 48`. -/
def window_height : ℤ := 48

/-- Settings block of the script: `stride = 24`. -/
def stride : ℤ := 24

/-- The script's `num_horizontal_windows = math.floor((width - window_width) / stride) + 1`,
made parametric in the settings.  For a positive stride, `Int` division is
floor division, matching `math.floor` of the Python float quotient. -/
def num_horizontal_windows (width window_width stride : ℤ) : ℤ :=
  (width - window_width) / stride + 1

/-- The script's `num_vertical_windows = math.floor((height - window_height) / stride) + 1`,
made parametric in the settings. -/
def num_vertical_windows (height window_height stride : ℤ) : ℤ :=
  (height - window_height) / stride + 1

/-- The window positions visited by the nested loop

```
for vertical_window in range(num_vertical_windows):
    for horizontal_window in range(num_horizontal_windows):
        x = horizontal_window * stride
        y = vertical_window * stride
```

in emission order, as `(x, y)` pairs.  `Int.toNat` reproduces Python's empty
`range` on a non-positive argument. -/
def windowGrid (num_vertical_windows num_horizontal_windows stride : ℤ) :
    List (ℤ × ℤ) :=
  (List.range num_vertical_windows.toNat).flatMap fun (vertical_window : ℕ) =>
    (List.range num_horizontal_windows.toNat).map fun (horizontal_window : ℕ) =>
      ((horizontal_window : ℤ) * stride, (vertical_window : ℤ) * stride)

/-- Errors that abort the window loop (and, in the script, the whole program,
since no `try`/`except` surrounds it): an exception raised by `tf.classify`
itself, or an `IndexError` from `objs[0]` or `predictions[target_idx]`. -/
inductive ScanError where
  | classifyException
  | indexError
deriving DecidableEq

/-- One iteration of the inner loop body at window position `pos = (x, y)`:

```
objs = tf.classify(model_file, window_img)
predictions = objs[0].output()
if predictions[target_idx] >= target_threshold:
    bboxes.append((x, y, window_width, window_height, predictions[target_idx]))
```

returning `some` detection when the box is appended, `none` when the window is
below threshold, and an error when an exception is raised. -/
def processWindow (classify : ℤ → ℤ → Except Unit (List (List ℚ)))
    (target_idx : ℕ) (target_threshold : ℚ) (window_width window_height : ℤ)
    (pos : ℤ × ℤ) : Except ScanError (Option Detection) :=
  match classify pos.1 pos.2 with
  | Except.error _ => Except.error ScanError.classifyException
  | Except.ok objs =>
    match objs.head? with
    | none => Except.error ScanError.indexError
    | some predictions =>
      match predictions.get? target_idx with
      | none => Except.error ScanError.indexError
      | some p =>
        if target_threshold ≤ p then
          Except.ok (some ⟨pos.1, pos.2, window_width, window_height, p⟩)
        else
          Except.ok none

/-- One full scan of one frame: the nested window loop, accumulating `bboxes`
in emission order.  An exception on any window aborts the scan (the script has
no handler, so the partial `bboxes` list is never reported). -/
def scan (classify : ℤ → ℤ → Except Unit (List (List ℚ)))
    (target_idx : ℕ) (target_threshold : ℚ)
    (width height window_width window_height stride : ℤ) :
    Except ScanError (List Detection) :=
  Except.map (List.filterMap id)
    ((windowGrid (num_vertical_windows height window_height stride)
        (num_horizontal_windows width window_width stride) stride).mapM
      (processWindow classify target_idx target_threshold window_width
        window_height))

/-- The `ValueError` raised by `labels.index(target_label)` when the target
label is absent from the labels file. -/
inductive StartupError where
  | valueError
deriving DecidableEq

/-- The script's `target_idx = labels.index(target_label)`, executed once at
startup before the main loop: the first index of the target label, or a
`ValueError` (modelled as `Except.error`) when it is absent. -/
def startup (labels : List String) (target_label : String) :
    Except StartupError ℕ :=
  match labels.indexOf? target_label with
  | none => Except.error StartupError.valueError
  | some i => Except.ok i

/-- Startup followed by one frame's scan: `target_idx` is computed before the
`while(True)` loop, so a startup failure means no scan is attempted. -/
def runFrame (labels : List String) (target_label : String)
    (classify : ℤ → ℤ → Except Unit (List (List ℚ)))
    (target_threshold : ℚ)
    (width height window_width window_height stride : ℤ) :
    Except (StartupError ⊕ ScanError) (List Detection) :=
  match startup labels target_label with
  | Except.error e => Except.error (Sum.inl e)
  | Except.ok target_idx =>
    match scan classify target_idx target_threshold width height window_width
        window_height stride with
    | Except.error e => Except.error (Sum.inr e)
    | Except.ok bboxes => Except.ok bboxes

/-- A classifier that never raises and returns exactly one prediction object
per call, with probability list `probs x y` at window position `(x, y)`. -/
def pureClassifier (probs : ℤ → ℤ → List ℚ) :
    ℤ → ℤ → Except Unit (List (List ℚ)) :=
  fun x y => Except.ok [probs x y]

/-- What `processWindow` computes for a `pureClassifier` whose probability
list covers the target index: the appended box, if any. -/
def detectOf (probs : ℤ → ℤ → List ℚ) (target_idx : ℕ)
    (target_threshold : ℚ) (window_width window_height : ℤ)
    (pos : ℤ × ℤ) : Option Detection :=
  match (probs pos.1 pos.2).get? target_idx with
  | none => none
  | some p =>
    if target_threshold ≤ p then
      some ⟨pos.1, pos.2, window_width, window_height, p⟩
    else none

/-! ### Helper lemmas -/

theorem mapM_ok_of_forall {α β ε : Type} (f : α → Except ε β) (g : α → β) :
    ∀ l : List α, (∀ a ∈ l, f a = Except.ok (g a)) →
      l.mapM f = Except.ok (l.map g) := by
  intro l
  induction l with
  | nil => intro _; rfl
  | cons a l ih =>
    intro h
    have ha := h a (List.mem_cons_self a l)
    have hl := ih fun b hb => h b (List.mem_cons_of_mem a hb)
    rw [List.mapM_cons, ha, hl]
    rfl

theorem mapM_isOk_iff {α β ε : Type} (f : α → Except ε β) :
    ∀ l : List α, (∃ r, l.mapM f = Except.ok r) ↔ ∀ a ∈ l, ∃ b, f a = Except.ok b := by
  intro l
  induction l with
  | nil =>
    exact ⟨fun _ b hb => absurd hb (List.not_mem_nil b), fun _ => ⟨[], rfl⟩⟩
  | cons a l ih =>
    constructor
    · rintro ⟨r, hr⟩ b hb
      rw [List.mapM_cons] at hr
      cases ha : f a with
      | error e => rw [ha] at hr; exact Except.noConfusion hr
      | ok v =>
        rw [ha] at hr
        rcases List.mem_cons.mp hb with rfl | hb
        · exact ⟨v, ha⟩
        · cases hl : l.mapM f with
          | error e =>
            rw [hl] at hr
            exact Except.noConfusion hr
          | ok rs => exact (ih.mp ⟨rs, hl⟩) b hb
    · intro h
      obtain ⟨v, ha⟩ := h a (List.mem_cons_self a l)
      obtain ⟨rs, hl⟩ := ih.mpr fun b hb => h b (List.mem_cons_of_mem a hb)
      refine ⟨v :: rs, ?_⟩
      rw [List.mapM_cons, ha, hl]
      rfl

theorem mapM_forall₂ {α β ε : Type} (f : α → Except ε β) :
    ∀ (l : List α) (r : List β), l.mapM f = Except.ok r →
      List.Forall₂ (fun a b => f a = Except.ok b) l r := by
  intro l
  induction l with
  | nil =>
    intro r hr
    have : ([] : List β) = r := Except.ok.inj hr
    subst this
    exact List.Forall₂.nil
  | cons a l ih =>
    intro r hr
    rw [List.mapM_cons] at hr
    cases ha : f a with
    | error e => rw [ha] at hr; exact Except.noConfusion hr
    | ok v =>
      rw [ha] at hr
      cases hl : l.mapM f with
      | error e =>
        rw [hl] at hr
        exact Except.noConfusion hr
      | ok rs =>
        rw [hl] at hr
        have : v :: rs = r := Except.ok.inj hr
        subst this
        exact List.Forall₂.cons ha (ih rs hl)

theorem forall₂_mem_right {α β : Type} (rel : α → β → Prop) :
    ∀ (l : List α) (r : List β), List.Forall₂ rel l r → ∀ b ∈ r, ∃ a ∈ l, rel a b := by
  intro l r h
  induction h with
  | nil => intro b hb; exact absurd hb (List.not_mem_nil b)
  | cons ha _ ih =>
    intro b hb
    rcases List.mem_cons.mp hb with rfl | hb
    · exact ⟨_, List.mem_cons_self _ _, ha⟩
    · obtain ⟨a, hal, har⟩ := ih b hb
      exact ⟨a, List.mem_cons_of_mem _ hal, har⟩

theorem forall₂_pairwise {α β : Type} (rel : α → β → Prop)
    (S : α → α → Prop) (R : β → β → Prop)
    (hcompat : ∀ a b a2 b2, rel a b → rel a2 b2 → S a a2 → R b b2) :
    ∀ (l : List α) (r : List β), List.Forall₂ rel l r → l.Pairwise S → r.Pairwise R := by
  intro l r h
  induction h with
  | nil => intro _; exact List.Pairwise.nil
  | cons ha htail ih =>
    intro hp
    rcases List.pairwise_cons.mp hp with ⟨hhead, htl⟩
    refine List.pairwise_cons.mpr ⟨?_, ih htl⟩
    intro b2 hb2
    obtain ⟨a2, ha2, hrel2⟩ := forall₂_mem_right _ _ _ htail b2 hb2
    exact hcompat _ _ _ _ ha hrel2 (hhead a2 ha2)

theorem length_windowGrid (nv nh s : ℤ) :
    (windowGrid nv nh s).length = nv.toNat * nh.toNat := by
  unfold windowGrid
  rw [List.length_flatMap]
  have key : ∀ l : List ℕ,
      (List.map (List.length ∘ fun (vertical_window : ℕ) =>
        (List.range nh.toNat).map fun (horizontal_window : ℕ) =>
          ((horizontal_window : ℤ) * s, (vertical_window : ℤ) * s)) l).sum
        = l.length * nh.toNat := by
    intro l
    induction l with
    | nil => simp
    | cons a l ih =>
      simp only [List.map_cons, List.sum_cons, ih, Function.comp_apply,
        List.length_map, List.length_range, List.length_cons]
      ring
  rw [key, List.length_range]

theorem mem_windowGrid {nv nh s : ℤ} {p : ℤ × ℤ} :
    p ∈ windowGrid nv nh s ↔
      ∃ v < nv.toNat, ∃ h < nh.toNat, p = ((h : ℤ) * s, (v : ℤ) * s) := by
  unfold windowGrid
  simp only [List.mem_flatMap, List.mem_map, List.mem_range]
  constructor
  · rintro ⟨v, hv, h, hh, rfl⟩
    exact ⟨v, hv, h, hh, rfl⟩
  · rintro ⟨v, hv, h, hh, rfl⟩
    exact ⟨v, hv, h, hh, rfl⟩

theorem processWindow_classify_error
    (classify : ℤ → ℤ → Except Unit (List (List ℚ)))
    (target_idx : ℕ) (θ : ℚ) (ww wh : ℤ) (pos : ℤ × ℤ) (e : Unit)
    (h : classify pos.1 pos.2 = Except.error e) :
    processWindow classify target_idx θ ww wh pos =
      Except.error ScanError.classifyException := by
  unfold processWindow
  rw [h]

/-- Raster (row-major) order on window positions: strictly later rows, or the
same row and a strictly later column. -/
def rasterBefore (p q : ℤ × ℤ) : Prop :=
  p.2 < q.2 ∨ (p.2 = q.2 ∧ p.1 < q.1)

theorem windowGrid_pairwise (nv nh s : ℤ) (hs : 0 < s) :
    (windowGrid nv nh s).Pairwise rasterBefore := by
  unfold windowGrid
  rw [List.pairwise_flatMap]
  constructor
  · intro v _
    rw [List.pairwise_map]
    refine List.Pairwise.imp ?_ (List.pairwise_lt_range nh.toNat)
    intro a b hab
    right
    refine ⟨rfl, ?_⟩
    have : (a : ℤ) < (b : ℤ) := by exact_mod_cast hab
    exact mul_lt_mul_of_pos_right this hs
  · refine List.Pairwise.imp ?_ (List.pairwise_lt_range nv.toNat)
    intro v1 v2 hv p hp q hq
    simp only [List.mem_map] at hp hq
    obtain ⟨h1, _, rfl⟩ := hp
    obtain ⟨h2, _, rfl⟩ := hq
    left
    have : (v1 : ℤ) < (v2 : ℤ) := by exact_mod_cast hv
    exact mul_lt_mul_of_pos_right this hs

theorem windowGrid_nodup (nv nh s : ℤ) (hs : 0 < s) :
    (windowGrid nv nh s).Nodup := by
  refine List.Pairwise.imp ?_ (windowGrid_pairwise nv nh s hs)
  intro p q hpq hEq
  subst hEq
  rcases hpq with h | ⟨_, h⟩
  · exact lt_irrefl _ h
  · exact lt_irrefl _ h

theorem processWindow_pureClassifier (probs : ℤ → ℤ → List ℚ)
    (target_idx : ℕ) (θ : ℚ) (ww wh : ℤ) (pos : ℤ × ℤ)
    (hlen : target_idx < (probs pos.1 pos.2).length) :
    processWindow (pureClassifier probs) target_idx θ ww wh pos =
      Except.ok (detectOf probs target_idx θ ww wh pos) := by
  unfold processWindow pureClassifier detectOf
  have hsome : (probs pos.1 pos.2).get? target_idx =
      some ((probs pos.1 pos.2).get ⟨target_idx, hlen⟩) :=
    List.get?_eq_get hlen
  simp only [List.head?_cons, hsome]
  split <;> rfl

theorem scan_pureClassifier (probs : ℤ → ℤ → List ℚ)
    (target_idx : ℕ) (θ : ℚ) (W H ww wh s : ℤ)
    (hlen : ∀ x y, target_idx < (probs x y).length) :
    scan (pureClassifier probs) target_idx θ W H ww wh s =
      Except.ok ((windowGrid (num_vertical_windows H wh s)
        (num_horizontal_windows W ww s) s).filterMap
          (detectOf probs target_idx θ ww wh)) := by
  unfold scan
  rw [mapM_ok_of_forall _ (detectOf probs target_idx θ ww wh) _
    (fun p _ => processWindow_pureClassifier probs target_idx θ ww wh p
      (hlen p.1 p.2))]
  simp [Except.map, List.filterMap_map]

theorem processWindow_ok_some (classify : ℤ → ℤ → Except Unit (List (List ℚ)))
    (target_idx : ℕ) (θ : ℚ) (ww wh : ℤ) (pos : ℤ × ℤ) (d : Detection)
    (h : processWindow classify target_idx θ ww wh pos = Except.ok (some d)) :
    d.x = pos.1 ∧ d.y = pos.2 ∧ d.w = ww ∧ d.h = wh ∧ θ ≤ d.score := by
  unfold processWindow at h
  split at h
  · exact Except.noConfusion h
  · split at h
    · exact Except.noConfusion h
    · split at h
      · exact Except.noConfusion h
      · split at h
        · have hd := Option.some.inj (Except.ok.inj h)
          subst hd
          exact ⟨rfl, rfl, rfl, rfl, by assumption⟩
        · exact Option.noConfusion (Except.ok.inj h)

theorem detectOf_some (probs : ℤ → ℤ → List ℚ) (target_idx : ℕ) (θ : ℚ)
    (ww wh : ℤ) (pos : ℤ × ℤ) (d : Detection)
    (h : detectOf probs target_idx θ ww wh pos = some d) :
    d.x = pos.1 ∧ d.y = pos.2 ∧ d.w = ww ∧ d.h = wh ∧ θ ≤ d.score ∧
      (probs pos.1 pos.2).get? target_idx = some d.score := by
  unfold detectOf at h
  split at h
  · exact Option.noConfusion h
  · split at h
    · have hd := Option.some.inj h
      subst hd
      exact ⟨rfl, rfl, rfl, rfl, by assumption, by assumption⟩
    · exact Option.noConfusion h

theorem detectOf_apply (probs : ℤ → ℤ → List ℚ) (target_idx : ℕ) (θ : ℚ)
    (ww wh : ℤ) (x y : ℤ) (p : ℚ)
    (hp : (probs x y).get? target_idx = some p) :
    detectOf probs target_idx θ ww wh (x, y) =
      if θ ≤ p then some ⟨x, y, ww, wh, p⟩ else none := by
  unfold detectOf
  rw [hp]

theorem countP_filterMap_position (x y : ℤ) (f : ℤ × ℤ → Option Detection)
    (hf : ∀ a d, f a = some d → d.x = a.1 ∧ d.y = a.2) :
    ∀ l : List (ℤ × ℤ), l.Nodup → (x, y) ∈ l →
      (l.filterMap f).countP (fun d => d.x == x && d.y == y) =
        if (f (x, y)).isSome then 1 else 0 := by
  intro l
  induction l with
  | nil => intro _ hmem; exact absurd hmem (List.not_mem_nil _)
  | cons a l ih =>
    intro hnd hmem
    have hnd2 := List.nodup_cons.mp hnd
    by_cases ha : a = (x, y)
    · subst ha
      have htail0 : (l.filterMap f).countP (fun d => d.x == x && d.y == y) = 0 := by
        rw [List.countP_eq_zero]
        intro d hd
        obtain ⟨b, hbl, hfb⟩ := List.mem_filterMap.mp hd
        obtain ⟨hbx, hby⟩ := hf b d hfb
        simp only [Bool.and_eq_true, beq_iff_eq, not_and]
        intro hdx hdy
        apply hnd2.1
        have : b = (x, y) := by
          rw [Prod.ext_iff]
          exact ⟨by rw [← hbx, hdx], by rw [← hby, hdy]⟩
        rw [← this]
        exact hbl
      cases hfa : f (x, y) with
      | none =>
        rw [List.filterMap_cons_none hfa, htail0]
        rfl
      | some d =>
        obtain ⟨hdx, hdy⟩ := hf (x, y) d hfa
        rw [List.filterMap_cons_some hfa, List.countP_cons_of_pos, htail0]
        · rfl
        · simp [hdx, hdy]
    · have hmem2 : (x, y) ∈ l := by
        rcases List.mem_cons.mp hmem with h | h
        · exact absurd h.symm ha
        · exact h
      have htl := ih hnd2.2 hmem2
      cases hfa : f a with
      | none => rw [List.filterMap_cons_none hfa]; exact htl
      | some d =>
        obtain ⟨hdx, hdy⟩ := hf a d hfa
        rw [List.filterMap_cons_some hfa, List.countP_cons_of_neg]
        · exact htl
        · simp only [Bool.and_eq_true, beq_iff_eq, not_and]
          intro h1 h2
          apply ha
          rw [Prod.ext_iff]
          exact ⟨by rw [← hdx, h1], by rw [← hdy, h2]⟩

/-! ### Claims -/

/-- C1: for every frame of width `W` and height `H` and every window
parameters `(w, h, stride)` with `w ≤ W`, `h ≤ H` and `stride > 0`, one scan
of the frame invokes the classifier on exactly
`(floor((W−w)/stride)+1) × (floor((H−h)/stride)+1)` windows.  `scan` invokes
the classifier once per element of `windowGrid` (one `processWindow` call per
grid element, each performing exactly one `classify` call), so the number of
classifier invocations of one scan is the length of `windowGrid`. -/
theorem C1_window_count (W H ww wh s : ℤ) (hw : ww ≤ W) (hh : wh ≤ H)
    (hs : 0 < s) :
    ((windowGrid (num_vertical_windows H wh s)
        (num_horizontal_windows W ww s) s).length : ℤ) =
      ((W - ww) / s + 1) * ((H - wh) / s + 1) := by
  rw [length_windowGrid]
  have h1 : 0 ≤ (W - ww) / s := Int.ediv_nonneg (by linarith) (le_of_lt hs)
  have h2 : 0 ≤ (H - wh) / s := Int.ediv_nonneg (by linarith) (le_of_lt hs)
  unfold num_horizontal_windows num_vertical_windows
  rw [Nat.cast_mul, Int.toNat_of_nonneg (by linarith), Int.toNat_of_nonneg (by linarith)]
  ring

/-- Witness for C1 at the script's own settings: `W = 160`, `H = 120`,
`w = h = 48`, `stride = 24` give `5 × 4 = 20` scanned windows. -/
theorem C1_window_count_witness :
    (48 : ℤ) ≤ 160 ∧ (48 : ℤ) ≤ 120 ∧ (0 : ℤ) < 24 ∧
    ((windowGrid (num_vertical_windows 120 48 24)
        (num_horizontal_windows 160 48 24) 24).length : ℤ) = 20 := by
  refine ⟨by decide, by decide, by decide, ?_⟩
  rw [C1_window_count 160 120 48 48 24 (by decide) (by decide) (by decide)]
  decide

/-- C4: every window position `(x, y)` produced by a scan with `w ≤ W` and
`h ≤ H` satisfies `0 ≤ x ≤ W−w` and `0 ≤ y ≤ H−h`, with `x` and `y` multiples
of the stride; and in the edge case `w = W`, `h = H`, exactly one window is
produced, at `(0, 0)`. -/
theorem C4_window_bounds (W H ww wh s : ℤ) (hw : ww ≤ W) (hh : wh ≤ H)
    (hs : 0 < s) :
    (∀ p ∈ windowGrid (num_vertical_windows H wh s)
        (num_horizontal_windows W ww s) s,
      0 ≤ p.1 ∧ p.1 ≤ W - ww ∧ 0 ≤ p.2 ∧ p.2 ≤ H - wh ∧ s ∣ p.1 ∧ s ∣ p.2) ∧
    (ww = W → wh = H →
      windowGrid (num_vertical_windows H wh s)
        (num_horizontal_windows W ww s) s = [(0, 0)]) := by
  constructor
  · intro p hp
    obtain ⟨v, hv, h, hh2, rfl⟩ := mem_windowGrid.mp hp
    have hhZ : (h : ℤ) < num_horizontal_windows W ww s := Int.lt_toNat.mp hh2
    have hvZ : (v : ℤ) < num_vertical_windows H wh s := Int.lt_toNat.mp hv
    have hhle : (h : ℤ) ≤ (W - ww) / s := by
      unfold num_horizontal_windows at hhZ
      linarith
    have hvle : (v : ℤ) ≤ (H - wh) / s := by
      unfold num_vertical_windows at hvZ
      linarith
    refine ⟨mul_nonneg (Int.ofNat_nonneg h) (le_of_lt hs), ?_,
      mul_nonneg (Int.ofNat_nonneg v) (le_of_lt hs), ?_,
      dvd_mul_left s (h : ℤ), dvd_mul_left s (v : ℤ)⟩
    · calc (h : ℤ) * s ≤ (W - ww) / s * s :=
            mul_le_mul_of_nonneg_right hhle (le_of_lt hs)
        _ ≤ W - ww := Int.ediv_mul_le (W - ww) (ne_of_gt hs)
    · calc (v : ℤ) * s ≤ (H - wh) / s * s :=
            mul_le_mul_of_nonneg_right hvle (le_of_lt hs)
        _ ≤ H - wh := Int.ediv_mul_le (H - wh) (ne_of_gt hs)
  · intro hwW hhH
    subst hwW
    subst hhH
    unfold windowGrid num_horizontal_windows num_vertical_windows
    have h1 : List.range 1 = [0] := rfl
    simp [sub_self, Int.zero_ediv, h1]

/-- Witness for C4 at `W = H = w = h = 48`, `stride = 24`: the window equals
the frame and the single window sits at `(0, 0)`. -/
theorem C4_window_bounds_witness :
    (∀ p ∈ windowGrid (num_vertical_windows 48 48 24)
        (num_horizontal_windows 48 48 24) 24,
      0 ≤ p.1 ∧ p.1 ≤ 48 - 48 ∧ 0 ≤ p.2 ∧ p.2 ≤ 48 - 48 ∧
        24 ∣ p.1 ∧ 24 ∣ p.2) ∧
    ((48 : ℤ) = 48 → (48 : ℤ) = 48 →
      windowGrid (num_vertical_windows 48 48 24)
        (num_horizontal_windows 48 48 24) 24 = [(0, 0)]) :=
  C4_window_bounds 48 48 48 48 24 (by decide) (by decide) (by decide)

/-- C6 counterexample: with a window wider than the frame (`W = 160`,
`w = 200`), the computed number of horizontal windows is `−1 < 1`, yet the
program raises no startup error and the scan returns a silent empty detection
list: `runFrame` succeeds with `Except.ok []`, contradicting the claim that
this configuration is fatal at startup with no scan attempted. -/
theorem C6_counterexample :
    num_horizontal_windows 160 200 24 < 1 ∧
    runFrame ["dog"] "dog" (fun _ _ => Except.ok [[1]]) 1 160 120 200 48 24 =
      Except.ok [] :=
  ⟨by decide, rfl⟩

/-- C6 amended: if the computed number of horizontal or vertical windows is
less than 1 (the window is larger than the frame), the loop ranges are empty,
no window is evaluated, and the scan silently returns the empty detection
sequence; no configuration error is raised at startup or anywhere else. -/
theorem C6_amended_silent_empty
    (classify : ℤ → ℤ → Except Unit (List (List ℚ)))
    (target_idx : ℕ) (θ : ℚ) (W H ww wh s : ℤ)
    (h : num_horizontal_windows W ww s < 1 ∨ num_vertical_windows H wh s < 1) :
    scan classify target_idx θ W H ww wh s = Except.ok [] := by
  have hgrid : windowGrid (num_vertical_windows H wh s)
      (num_horizontal_windows W ww s) s = [] := by
    rcases h with h | h
    · have h0 : (num_horizontal_windows W ww s).toNat = 0 := by
        omega
      unfold windowGrid
      rw [h0]
      simp
    · have h0 : (num_vertical_windows H wh s).toNat = 0 := by
        omega
      unfold windowGrid
      rw [h0]
      simp
  unfold scan
  rw [hgrid]
  rfl

/-- Witness for C6 amended: the `W = 160`, `w = 200` configuration scans to
the empty detection list. -/
theorem C6_amended_silent_empty_witness :
    scan (fun _ _ => Except.ok [[1]]) 0 1 160 120 200 48 24 = Except.ok [] :=
  C6_amended_silent_empty (fun _ _ => Except.ok [[1]]) 0 1 160 120 200 48 24
    (Or.inl (by decide))

/-- C2: for a scan whose classifier is well-behaved (one prediction object,
probability list covering the target index), a window at grid position
`(x, y)` contributes a detection if and only if the classifier's probability
`p` for the target index on that window is greater than or equal to the
threshold (`θ ≤ p`, so a score exactly equal to the threshold is included and
strictly below is excluded), and when included it appears exactly once, as
`Detection(x, y, window_w, window_h, p)`. -/
theorem C2_threshold_boundary (probs : ℤ → ℤ → List ℚ) (target_idx : ℕ)
    (θ : ℚ) (W H ww wh s : ℤ) (hs : 0 < s)
    (hlen : ∀ x y, target_idx < (probs x y).length)
    (x y : ℤ)
    (hmem : (x, y) ∈ windowGrid (num_vertical_windows H wh s)
      (num_horizontal_windows W ww s) s)
    (p : ℚ) (hp : (probs x y).get? target_idx = some p) :
    ∃ ds, scan (pureClassifier probs) target_idx θ W H ww wh s =
        Except.ok ds ∧
      (Detection.mk x y ww wh p ∈ ds ↔ θ ≤ p) ∧
      ds.countP (fun d => d.x == x && d.y == y) = (if θ ≤ p then 1 else 0) ∧
      (∀ d ∈ ds, d.x = x → d.y = y → d = Detection.mk x y ww wh p) := by
  refine ⟨_, scan_pureClassifier probs target_idx θ W H ww wh s hlen, ?_, ?_, ?_⟩
  · constructor
    · intro hd
      obtain ⟨a, _, hfa⟩ := List.mem_filterMap.mp hd
      obtain ⟨ha1, ha2, _, _, hθ, _⟩ :=
        detectOf_some probs target_idx θ ww wh a _ hfa
      exact hθ
    · intro hθ
      refine List.mem_filterMap.mpr ⟨(x, y), hmem, ?_⟩
      rw [detectOf_apply probs target_idx θ ww wh x y p hp, if_pos hθ]
  · rw [countP_filterMap_position x y _
      (fun a d hd => ⟨(detectOf_some probs target_idx θ ww wh a d hd).1,
        (detectOf_some probs target_idx θ ww wh a d hd).2.1⟩)
      _ (windowGrid_nodup _ _ _ hs) hmem,
      detectOf_apply probs target_idx θ ww wh x y p hp]
    by_cases hθ : θ ≤ p
    · rw [if_pos hθ, if_pos hθ]
      rfl
    · rw [if_neg hθ, if_neg hθ]
      rfl
  · intro d hd hdx hdy
    obtain ⟨a, _, hfa⟩ := List.mem_filterMap.mp hd
    obtain ⟨ha1, ha2, haw, hah, _, hsc⟩ :=
      detectOf_some probs target_idx θ ww wh a _ hfa
    have haxy : a = (x, y) := by
      rw [Prod.ext_iff]
      exact ⟨by rw [← ha1, hdx], by rw [← ha2, hdy]⟩
    subst haxy
    have hpd : p = d.score := by
      have := hsc.symm.trans hp
      exact (Option.some.inj this).symm
    cases d
    simp only at hdx hdy haw hah hpd
    rw [hdx, hdy, haw, hah, hpd]

/-- Probability function for the C2 witness: probability 1 at window
`(24, 0)`, 0 elsewhere, in a one-label model. -/
def c2Probs : ℤ → ℤ → List ℚ := fun a b => [if a == 24 && b == 0 then 1 else 0]

/-- Witness for C2: with threshold 1 and a classifier scoring exactly 1 (the
threshold itself) at window `(24, 0)`, that window appears in the result
exactly once, as `Detection(24, 0, 48, 48, 1)`. -/
theorem C2_threshold_boundary_witness :
    ∃ ds, scan (pureClassifier c2Probs) 0 1 160 120 48 48 24 =
        Except.ok ds ∧
      (Detection.mk 24 0 48 48 1 ∈ ds ↔ (1 : ℚ) ≤ 1) ∧
      ds.countP (fun d => d.x == 24 && d.y == 0) =
        (if (1 : ℚ) ≤ 1 then 1 else 0) ∧
      (∀ d ∈ ds, d.x = 24 → d.y = 0 → d = Detection.mk 24 0 48 48 1) :=
  C2_threshold_boundary c2Probs 0 1 160 120 48 48 24 (by decide)
    (fun _ _ => Nat.one_pos) 24 0 (by decide) 1 rfl

/-- C3: whenever a scan returns a detection sequence, that sequence is in
raster order — strictly increasing `y`, and strictly increasing `x` within
equal `y` — for every classifier and threshold, hence regardless of the
magnitude of the scores and in particular not sorted by score. -/
theorem C3_raster_order (classify : ℤ → ℤ → Except Unit (List (List ℚ)))
    (target_idx : ℕ) (θ : ℚ) (W H ww wh s : ℤ) (hs : 0 < s)
    (ds : List Detection)
    (hok : scan classify target_idx θ W H ww wh s = Except.ok ds) :
    ds.Pairwise (fun d e => d.y < e.y ∨ (d.y = e.y ∧ d.x < e.x)) := by
  unfold scan at hok
  cases hm : (windowGrid (num_vertical_windows H wh s)
      (num_horizontal_windows W ww s) s).mapM
      (processWindow classify target_idx θ ww wh) with
  | error e => rw [hm] at hok; exact Except.noConfusion hok
  | ok r =>
    rw [hm] at hok
    have hds : r.filterMap id = ds := Except.ok.inj hok
    subst hds
    rw [List.pairwise_filterMap]
    have hf₂ := mapM_forall₂ _ _ _ hm
    refine forall₂_pairwise _ rasterBefore _ ?_ _ _ hf₂
      (windowGrid_pairwise _ _ _ hs)
    intro a b a2 b2 hab hab2 hS d hd d2 hd2
    have hb : b = some d := hd
    have hb2 : b2 = some d2 := hd2
    subst hb
    subst hb2
    obtain ⟨h1, h2, _, _, _⟩ := processWindow_ok_some _ _ _ _ _ _ _ hab
    obtain ⟨h1b, h2b, _, _, _⟩ := processWindow_ok_some _ _ _ _ _ _ _ hab2
    rcases hS with h | ⟨he, hx⟩
    · left
      rw [h2, h2b]
      exact h
    · right
      rw [h2, h2b, h1, h1b]
      exact ⟨he, hx⟩

/-- Witness for C3 on a 72×48 frame with a constant always-detecting
classifier: the two detections come out in raster order. -/
theorem C3_raster_order_witness :
    List.Pairwise (fun d e => d.y < e.y ∨ (d.y = e.y ∧ d.x < e.x))
      [Detection.mk 0 0 48 48 1, Detection.mk 24 0 48 48 1] :=
  C3_raster_order (pureClassifier fun _ _ => [1]) 0 0 72 48 48 48 24
    (by decide) [Detection.mk 0 0 48 48 1, Detection.mk 24 0 48 48 1] rfl

/-- C5 counterexample: at the script's own settings (`W = 160`, `H = 120`,
`w = h = 48`, `stride = 24`) the pixel `(144, 0)` is in range (`0 ≤ 144 < 160`,
`0 ≤ 0 < 120`) but lies inside none of the 20 scanned windows: the rightmost
window starts at `x = 96` and ends at `x = 143`, so columns 144–159 are never
covered and the windows do not fully cover the image. -/
theorem C5_counterexample :
    (0 : ℤ) ≤ 144 ∧ (144 : ℤ) < 160 ∧ (0 : ℤ) ≤ 0 ∧ (0 : ℤ) < 120 ∧
    ∀ p ∈ windowGrid (num_vertical_windows 120 48 24)
        (num_horizontal_windows 160 48 24) 24,
      ¬ (p.1 ≤ 144 ∧ 144 < p.1 + 48 ∧ p.2 ≤ 0 ∧ 0 < p.2 + 48) := by
  decide

/-- C5 amended: with `stride ≤ w`, `stride ≤ h` (consecutive windows abut or
overlap), the scanned windows cover exactly the prefix rectangle
`[0, floor((W−w)/stride)·stride + w) × [0, floor((H−h)/stride)·stride + h)`
of the image: every pixel `(px, py)` inside that rectangle lies inside at
least one scanned window.  When the stride does not divide `W−w` (or `H−h`),
this rectangle is a strict subset of the frame, so full coverage fails. -/
theorem C5_amended_coverage (W H ww wh s : ℤ) (hw : ww ≤ W) (hh : wh ≤ H)
    (hs : 0 < s) (hsw : s ≤ ww) (hsh : s ≤ wh)
    (px py : ℤ) (hx0 : 0 ≤ px) (hx : px < (W - ww) / s * s + ww)
    (hy0 : 0 ≤ py) (hy : py < (H - wh) / s * s + wh) :
    ∃ p ∈ windowGrid (num_vertical_windows H wh s)
        (num_horizontal_windows W ww s) s,
      p.1 ≤ px ∧ px < p.1 + ww ∧ p.2 ≤ py ∧ py < p.2 + wh := by
  have hpxs : 0 ≤ px / s := Int.ediv_nonneg hx0 (le_of_lt hs)
  have hpys : 0 ≤ py / s := Int.ediv_nonneg hy0 (le_of_lt hs)
  have hWs : 0 ≤ (W - ww) / s := Int.ediv_nonneg (by linarith) (le_of_lt hs)
  have hHs : 0 ≤ (H - wh) / s := Int.ediv_nonneg (by linarith) (le_of_lt hs)
  have hi0 : 0 ≤ min (px / s) ((W - ww) / s) := le_min hpxs hWs
  have hj0 : 0 ≤ min (py / s) ((H - wh) / s) := le_min hpys hHs
  refine ⟨(((min (px / s) ((W - ww) / s)).toNat : ℤ) * s,
    ((min (py / s) ((H - wh) / s)).toNat : ℤ) * s), ?_, ?_⟩
  · refine mem_windowGrid.mpr ⟨(min (py / s) ((H - wh) / s)).toNat, ?_,
      (min (px / s) ((W - ww) / s)).toNat, ?_, rfl⟩
    · have h1 : (0 : ℤ) < (H - wh) / s + 1 := by linarith
      rw [show (num_vertical_windows H wh s) = (H - wh) / s + 1 from rfl]
      rw [Int.toNat_lt_toNat h1]
      have := min_le_right (py / s) ((H - wh) / s)
      linarith
    · have h1 : (0 : ℤ) < (W - ww) / s + 1 := by linarith
      rw [show (num_horizontal_windows W ww s) = (W - ww) / s + 1 from rfl]
      rw [Int.toNat_lt_toNat h1]
      have := min_le_right (px / s) ((W - ww) / s)
      linarith
  · rw [Int.toNat_of_nonneg hi0, Int.toNat_of_nonneg hj0]
    dsimp only
    have hdivx : px / s * s ≤ px := Int.ediv_mul_le px (ne_of_gt hs)
    have hdivy : py / s * s ≤ py := Int.ediv_mul_le py (ne_of_gt hs)
    have hltx : px < (px / s + 1) * s := Int.lt_ediv_add_one_mul_self px hs
    have hlty : py < (py / s + 1) * s := Int.lt_ediv_add_one_mul_self py hs
    refine ⟨?_, ?_, ?_, ?_⟩
    · calc min (px / s) ((W - ww) / s) * s ≤ px / s * s :=
            mul_le_mul_of_nonneg_right (min_le_left _ _) (le_of_lt hs)
        _ ≤ px := hdivx
    · rcases le_total (px / s) ((W - ww) / s) with hc | hc
      · rw [min_eq_left hc]
        have : px < px / s * s + s := by linarith [hltx]
        linarith
      · rw [min_eq_right hc]
        linarith
    · calc min (py / s) ((H - wh) / s) * s ≤ py / s * s :=
            mul_le_mul_of_nonneg_right (min_le_left _ _) (le_of_lt hs)
        _ ≤ py := hdivy
    · rcases le_total (py / s) ((H - wh) / s) with hc | hc
      · rw [min_eq_left hc]
        have : py < py / s * s + s := by linarith [hlty]
        linarith
      · rw [min_eq_right hc]
        linarith

/-- Witness for C5 amended: at the script's settings the pixel `(143, 119)`
(the far corner of the covered rectangle `[0,144) × [0,120)`) lies inside a
scanned window. -/
theorem C5_amended_coverage_witness :
    ∃ p ∈ windowGrid (num_vertical_windows 120 48 24)
        (num_horizontal_windows 160 48 24) 24,
      p.1 ≤ 143 ∧ (143 : ℤ) < p.1 + 48 ∧ p.2 ≤ 119 ∧ (119 : ℤ) < p.2 + 48 :=
  C5_amended_coverage 160 120 48 48 24 (by decide) (by decide) (by decide)
    (by decide) (by decide) 143 119 (by decide) (by decide) (by decide)
    (by decide)

theorem processWindow_pure_eq (probs : ℤ → ℤ → List ℚ) (target_idx : ℕ)
    (θ : ℚ) (ww wh : ℤ) (pos : ℤ × ℤ) :
    processWindow (pureClassifier probs) target_idx θ ww wh pos =
      match (probs pos.1 pos.2).get? target_idx with
      | none => Except.error ScanError.indexError
      | some p =>
        if θ ≤ p then
          Except.ok (some ⟨pos.1, pos.2, ww, wh, p⟩)
        else Except.ok none := rfl

theorem mapM_congr {α β ε : Type} (f g : α → Except ε β) :
    ∀ l : List α, (∀ a ∈ l, f a = g a) → l.mapM f = l.mapM g := by
  intro l
  induction l with
  | nil => intro _; rfl
  | cons a l ih =>
    intro h
    rw [List.mapM_cons, List.mapM_cons, h a (List.mem_cons_self a l),
      ih fun b hb => h b (List.mem_cons_of_mem a hb)]

/-- C7 counterexample: with two labels (`["cat", "dog"]`, target index 1) and
a classifier returning a probability vector of five entries — more entries
than labels — the scan does not fail: it returns a normal detection sequence,
reading only index 1 and ignoring the excess entries.  This contradicts the
claim that any length mismatch, in particular too many entries, is a hard
contract violation failing the scan. -/
theorem C7_counterexample :
    ["cat", "dog"].length ≠ 5 ∧
    runFrame ["cat", "dog"] "dog" (fun _ _ => Except.ok [[0, 1, 0, 0, 0]]) 1
        48 48 48 48 24 =
      Except.ok [Detection.mk 0 0 48 48 1] :=
  ⟨by decide, rfl⟩

/-- C7 amended: for a classifier returning one prediction object per window,
the scan returns a normal detection sequence if and only if every scanned
window's probability vector extends past the target index (the only access is
`predictions[target_idx]`); a vector missing the target index raises an
`IndexError` that aborts the scan, while extra entries beyond the target
index are ignored. -/
theorem C7_amended_index_bound (probs : ℤ → ℤ → List ℚ) (target_idx : ℕ)
    (θ : ℚ) (W H ww wh s : ℤ) :
    (∃ ds, scan (pureClassifier probs) target_idx θ W H ww wh s =
        Except.ok ds) ↔
      ∀ p ∈ windowGrid (num_vertical_windows H wh s)
          (num_horizontal_windows W ww s) s,
        target_idx < (probs p.1 p.2).length := by
  constructor
  · rintro ⟨ds, hds⟩ pos hpos
    unfold scan at hds
    cases hm : (windowGrid (num_vertical_windows H wh s)
        (num_horizontal_windows W ww s) s).mapM
        (processWindow (pureClassifier probs) target_idx θ ww wh) with
    | error e => rw [hm] at hds; exact Except.noConfusion hds
    | ok r =>
      obtain ⟨b, hb⟩ := (mapM_isOk_iff _ _).mp ⟨r, hm⟩ pos hpos
      rw [processWindow_pure_eq] at hb
      cases hg : (probs pos.1 pos.2).get? target_idx with
      | none => rw [hg] at hb; exact Except.noConfusion hb
      | some q =>
        by_contra hlt
        rw [List.get?_eq_none.mpr (Nat.le_of_not_lt hlt)] at hg
        exact Option.noConfusion hg
  · intro h
    obtain ⟨r, hr⟩ := (mapM_isOk_iff
        (processWindow (pureClassifier probs) target_idx θ ww wh) _).mpr
      fun pos hpos => ⟨detectOf probs target_idx θ ww wh pos,
        processWindow_pureClassifier probs target_idx θ ww wh pos
          (h pos hpos)⟩
    refine ⟨r.filterMap id, ?_⟩
    unfold scan
    rw [hr]
    rfl

/-- C8 counterexample: a classifier that raises an execution error only on
window `(24, 0)` and detects (probability 1, threshold 1) everywhere else.
The claim predicts the scan still evaluates the remaining windows and returns
their detections with `(24, 0)` merely absent; instead the exception
propagates and the scan produces no detection sequence at all. -/
theorem C8_counterexample :
    scan (fun x y => if x == 24 && y == 0 then Except.error ()
        else Except.ok [[1]]) 0 1 160 120 48 48 24 =
      Except.error ScanError.classifyException :=
  rfl

/-- C8 amended: if the classifier invocation raises an execution error on any
scanned window, the whole frame's scan aborts with that error — no detection
sequence (not even a partial one) is returned, so subsequent windows do not
contribute detections. -/
theorem C8_amended_abort (classify : ℤ → ℤ → Except Unit (List (List ℚ)))
    (target_idx : ℕ) (θ : ℚ) (W H ww wh s : ℤ) (pos : ℤ × ℤ) (e : Unit)
    (hmem : pos ∈ windowGrid (num_vertical_windows H wh s)
      (num_horizontal_windows W ww s) s)
    (herr : classify pos.1 pos.2 = Except.error e) :
    ∀ ds, scan classify target_idx θ W H ww wh s ≠ Except.ok ds := by
  intro ds hok
  unfold scan at hok
  cases hm : (windowGrid (num_vertical_windows H wh s)
      (num_horizontal_windows W ww s) s).mapM
      (processWindow classify target_idx θ ww wh) with
  | error e2 => rw [hm] at hok; exact Except.noConfusion hok
  | ok r =>
    obtain ⟨b, hb⟩ := (mapM_isOk_iff _ _).mp ⟨r, hm⟩ pos hmem
    rw [processWindow_classify_error classify target_idx θ ww wh pos e herr]
      at hb
    exact Except.noConfusion hb

/-- Witness for C8 amended: a classifier that always raises leaves the
160×120 scan without any detection sequence. -/
theorem C8_amended_abort_witness :
    scan (fun _ _ => Except.error ()) 0 1 160 120 48 48 24 ≠
      Except.ok [] :=
  C8_amended_abort (fun _ _ => Except.error ()) 0 1 160 120 48 48 24 (0, 0) ()
    (by decide) rfl []

/-- C9: if the configured target label is absent from the loaded label list,
startup fails (`labels.index` raises `ValueError`) before any scan is
attempted, for every classifier and scan configuration; and when startup
succeeds with index `i`, then `i` is the position of the target label in the
label ordering — the label sits at index `i` and at no earlier index. -/
theorem C9_target_label (labels : List String) (target : String) :
    (target ∉ labels → ∀ (classify : ℤ → ℤ → Except Unit (List (List ℚ)))
        (θ : ℚ) (W H ww wh s : ℤ),
      runFrame labels target classify θ W H ww wh s =
        Except.error (Sum.inl StartupError.valueError)) ∧
    (∀ i, startup labels target = Except.ok i →
      labels.get? i = some target ∧ ∀ j < i, labels.get? j ≠ some target) := by
  constructor
  · intro habs classify θ W H ww wh s
    have hidx : labels.indexOf? target = none := by
      rw [List.indexOf?_eq_none_iff]
      intro x hx hbeq
      exact habs (by rw [← beq_iff_eq.mp hbeq]; exact hx)
    unfold runFrame startup
    rw [hidx]
  · intro i hi
    unfold startup at hi
    cases hidx : labels.indexOf? target with
    | none => rw [hidx] at hi; exact Except.noConfusion hi
    | some k =>
      rw [hidx] at hi
      have hk : k = i := Except.ok.inj hi
      subst hk
      have hfind : List.findIdx? (fun x => x == target) labels = some k := hidx
      obtain ⟨hlen, hbeq, hbefore⟩ :=
        List.findIdx?_eq_some_iff_getElem.mp hfind
      constructor
      · rw [List.get?_eq_getElem?]
        exact List.getElem?_eq_some.mpr ⟨hlen, beq_iff_eq.mp hbeq⟩
      · intro j hj hsome
        rw [List.get?_eq_getElem?] at hsome
        obtain ⟨hjlen, hjget⟩ := List.getElem?_eq_some.mp hsome
        exact hbefore j hj (by rw [hjget]; exact beq_iff_eq.mpr rfl)

/-- Witness for C9: `"dog"` is absent from the label list `["cat"]`, so the
frame run fails with the startup `ValueError` and no scan result is
produced. -/
theorem C9_target_label_witness :
    runFrame ["cat"] "dog" (fun _ _ => Except.ok [[1]]) 1 160 120 48 48 24 =
      Except.error (Sum.inl StartupError.valueError) :=
  (C9_target_label ["cat"] "dog").1 (by decide) (fun _ _ => Except.ok [[1]]) 1
    160 120 48 48 24

/-- C10: the scan reads only the first prediction object (`objs[0]`) returned
by each classifier call: two classifiers agreeing on the first prediction
object but returning arbitrary different further objects produce identical
scans, so all objects after the first have no effect on the detection
sequence. -/
theorem C10_first_prediction_only (obj0 : ℤ → ℤ → List ℚ)
    (rest rest2 : ℤ → ℤ → List (List ℚ)) (target_idx : ℕ) (θ : ℚ)
    (W H ww wh s : ℤ) :
    scan (fun x y => Except.ok (obj0 x y :: rest x y)) target_idx θ
        W H ww wh s =
      scan (fun x y => Except.ok (obj0 x y :: rest2 x y)) target_idx θ
        W H ww wh s := by
  unfold scan
  rw [mapM_congr (processWindow (fun x y => Except.ok (obj0 x y :: rest x y))
      target_idx θ ww wh)
    (processWindow (fun x y => Except.ok (obj0 x y :: rest2 x y))
      target_idx θ ww wh)
    _ (fun p _ => rfl)]

end SlidingWindow
